import Mathlib

/-!
Verification of the communications-tracking data layer: the day-bucketed
event store and its handlers (append, status update, replace, per-day
lookup), the campaign distinct-user cursor scanner, and the flat schedule
store queries.  The document collections are modelled as lists of records;
updateOne with and without upsert acts on the first matching document, as
the underlying store does.
-/

/-- Metadata embedded in each communication event (pushed by the append
handler as the metadata subdocument). -/
structure EventMeta where
  tracking_id : String
  template_id : String
deriving DecidableEq

/-- One communication event inside a day bucket. -/
structure Event where
  dispatch_time : Int
  metadata : EventMeta
  content_score : ℚ
  status : String
deriving DecidableEq

/-- The user subdocument of a bucket.  The type field is written only by the
append handler (setOnInsert); a replace-created bucket lacks it. -/
structure UserInfo where
  id : Int
  type : Option String
deriving DecidableEq

/-- A day-bucket document of the communications collection.  expireAt is
only set by the append handler on insert. -/
structure Bucket where
  user : UserInfo
  day : Int
  event_count : Int
  expireAt : Option Int
  events : List Event
deriving DecidableEq

/-- The equality filter on user.id and day shared by the bucket handlers. -/
def bucketKey (uid day : Int) (b : Bucket) : Bool :=
  b.user.id == uid && b.day == day

/-- findOne on the communications collection: first document matching the
filter, in collection order. -/
def findBucket (store : List Bucket) (uid day : Int) : Option Bucket :=
  store.find? (bucketKey uid day)

/-- GetDay: the per-user day lookup handler.  An absent bucket yields an
empty event list, never an error. -/
def getDay (store : List Bucket) (uid day : Int) : List Event :=
  match findBucket store uid day with
  | some b => b.events
  | none => []

/-- updateOne with upsert: rewrite the first document matching p with f, or
append the insert document when none matches. -/
def updateOneUpsert : List Bucket → (Bucket → Bool) → (Bucket → Bucket) → Bucket → List Bucket
  | [], _, _, ins => [ins]
  | b :: rest, p, f, ins =>
    if p b then f b :: rest else b :: updateOneUpsert rest p f ins

/-- AppendEvents: push evs onto the matching bucket's events and increment
event_count; on insert the setOnInsert fields (user, day, expireAt) are
materialised together with the pushed events. -/
def appendEvents (store : List Bucket) (uid : Int) (utype : String) (day expAt : Int)
    (evs : List Event) : List Bucket :=
  updateOneUpsert store (bucketKey uid day)
    (fun b => { b with events := b.events ++ evs,
                       event_count := b.event_count + (evs.length : Int) })
    { user := { id := uid, type := some utype }, day := day,
      event_count := (evs.length : Int), expireAt := some expAt, events := evs }

/-- The list of events the append handler builds from the request: count
copies stamped with the request time and metadata; the content score of
each copy is drawn from the supplied source. -/
def eventsToPush (count : Nat) (now : Int) (trk tmpl : String) (score : Nat → ℚ) : List Event :=
  (List.range count).map (fun i =>
    { dispatch_time := now, metadata := { tracking_id := trk, template_id := tmpl },
      content_score := score i, status := "sent" })

/-- ReplaceDay: set events and event_count of the matching bucket, or upsert
a document carrying only the filter equality fields and the set fields. -/
def replaceDay (store : List Bucket) (uid day : Int) (e : List Event) : List Bucket :=
  let newEvents := e.map (fun c => { c with dispatch_time := c.dispatch_time })
  updateOneUpsert store (bucketKey uid day)
    (fun b => { b with events := newEvents, event_count := (newEvents.length : Int) })
    { user := { id := uid, type := none }, day := day,
      event_count := (newEvents.length : Int), expireAt := none, events := newEvents }

/-- The arrayFilters element condition of the status-update handler: all
three event-level fields must match on the same element. -/
def elemCond (dt : Int) (tmpl trk : String) (e : Event) : Bool :=
  e.dispatch_time == dt && e.metadata.template_id == tmpl && e.metadata.tracking_id == trk

/-- The status-update document filter: dotted-path conditions, so each of
the three event conditions may be witnessed by a different array element. -/
def statusFilter (uid dt : Int) (tmpl trk : String) (b : Bucket) : Bool :=
  b.user.id == uid
    && b.events.any (fun e => e.dispatch_time == dt)
    && b.events.any (fun e => e.metadata.template_id == tmpl)
    && b.events.any (fun e => e.metadata.tracking_id == trk)

/-- The effect of the arrayFilters update on one bucket: every event
satisfying the element condition has its status set; nothing else moves. -/
def applyStatusTo (dt : Int) (tmpl trk ns : String) (b : Bucket) : Bucket :=
  { b with events := b.events.map (fun e =>
      if elemCond dt tmpl trk e then { e with status := ns } else e) }

/-- updateOne without upsert: rewrite the first matching document with f and
report whether any document matched. -/
def updateFirst : List Bucket → (Bucket → Bool) → (Bucket → Bucket) → List Bucket × Bool
  | [], _, _ => ([], false)
  | b :: rest, p, f =>
    if p b then (f b :: rest, true)
    else
      let r := updateFirst rest p f
      (b :: r.1, r.2)

/-- UpdateEventStatus: the status-update write, returning the new collection
state and the matched flag (matchedCount equals 1). -/
def updateEventStatus (store : List Bucket) (uid dt : Int) (tmpl trk ns : String) :
    List Bucket × Bool :=
  updateFirst store (statusFilter uid dt tmpl trk) (applyStatusTo dt tmpl trk ns)

/-- One append request against a fixed (user, day): its body fields that
vary per call. -/
structure AppendCall where
  userType : String
  expireAt : Int
  events : List Event
deriving DecidableEq

/-- A sequence of append calls against the same (user, day), applied in
order. -/
def applyAppends (store : List Bucket) (uid day : Int) (calls : List AppendCall) : List Bucket :=
  calls.foldl (fun s c => appendEvents s uid c.userType day c.expireAt c.events) store

/-- At most one bucket per (user id, day) pair. -/
def uniqueKeys (store : List Bucket) : Prop :=
  store.Pairwise (fun a b => ¬(a.user.id = b.user.id ∧ a.day = b.day))

/-- No bucket has an empty events array. -/
def noEmpty (store : List Bucket) : Prop :=
  ∀ b ∈ store, b.events ≠ []

/-- The elemMatch condition of the distinct-user query: one event inside
the hour window carrying the requested template and tracking ids.  The hour
window is half-open and one hour (3600000 ms) wide. -/
def eventHourMatch (hStart : Int) (tmpl trk : String) (e : Event) : Bool :=
  decide (hStart ≤ e.dispatch_time) && decide (e.dispatch_time < hStart + 3600000)
    && e.metadata.template_id == tmpl && e.metadata.tracking_id == trk

/-- The match stage of the distinct-user aggregation: day equality plus the
elemMatch above. -/
def campaignMatch (day hStart : Int) (tmpl trk : String) (b : Bucket) : Bool :=
  b.day == day && b.events.any (eventHourMatch hStart tmpl trk)

/-- Stages match, group by user.id and sort ascending of the distinct-user
pipeline: the deduplicated user ids of the matching buckets in ascending
order. -/
def campaignSortedIds (store : List Bucket) (day hStart : Int) (tmpl trk : String) : List Int :=
  List.insertionSort (fun a b : Int => a ≤ b)
    ((store.filter (campaignMatch day hStart tmpl trk)).map (fun b => b.user.id)).dedup

/-- The keyset stage: strictly-greater-than the cursor when one is
supplied, omitted on the first page. -/
def cursorFilter (c : Option Int) (l : List Int) : List Int :=
  match c with
  | none => l
  | some v => l.filter (fun u => decide (v < u))

/-- The page returned by the distinct-user endpoint (total and page number
are constant sentinels and carry no information). -/
structure CampaignPage where
  data : List Int
  hasMore : Bool
  lastUserId : Option Int
deriving DecidableEq

/-- The page size constant of the distinct-user endpoint. -/
def CAMPAIGN_PAGE_SIZE : Nat := 10

/-- CampaignDistinctUsers: run the pipeline (match, group, sort, cursor
match, limit pageSize + 1), then drop the probe element, report hasMore,
and echo the last returned user id as the cursor. -/
def campaignDistinctUsers (store : List Bucket) (day hStart : Int) (tmpl trk : String)
    (lastUserId : Option Int) (pageSize : Nat) : CampaignPage :=
  let results :=
    (cursorFilter lastUserId (campaignSortedIds store day hStart tmpl trk)).take (pageSize + 1)
  let data := results.take pageSize
  { data := data, hasMore := decide (pageSize < results.length), lastUserId := data.getLast? }

/-- The caller's pagination loop: call the endpoint, feed the returned
cursor into the next call, stop when hasMore is false.  Fuel bounds the
number of continuation calls; none signals exhaustion before completion. -/
def paginateCampaign (store : List Bucket) (day hStart : Int) (tmpl trk : String)
    (pageSize : Nat) : Nat → Option Int → List Int → Option (List Int)
  | 0, c, acc =>
    let p := campaignDistinctUsers store day hStart tmpl trk c pageSize
    if p.hasMore then none else some (acc ++ p.data)
  | fuel + 1, c, acc =>
    let p := campaignDistinctUsers store day hStart tmpl trk c pageSize
    if p.hasMore then
      paginateCampaign store day hStart tmpl trk pageSize fuel p.lastUserId (acc ++ p.data)
    else some (acc ++ p.data)

/-- Integer part of a decimal digit run, most significant first. -/
def digitsVal (l : List Char) : Nat :=
  l.foldl (fun n c => n * 10 + (c.toNat - 48)) 0

/-- The leading digit run of a character list, or none when there is no
leading digit. -/
def parseDigits (l : List Char) : Option Nat :=
  match l.takeWhile (fun c => c.isDigit) with
  | [] => none
  | ds => some (digitsVal ds)

/-- parseInt as the route handler uses it: optional sign then leading
decimal digits; none models NaN (no parsable prefix). -/
def parseIntJS (s : String) : Option Int :=
  match s.toList with
  | [] => none
  | c :: rest =>
    if c = '-' then (parseDigits rest).map (fun n => -(n : Int))
    else if c = '+' then (parseDigits rest).map (fun n => (n : Int))
    else (parseDigits (c :: rest)).map (fun n => (n : Int))

/-- Outcome of the GetDay route. -/
inductive GetDayResult where
  | validationError : GetDayResult
  | ok : List Event → GetDayResult
deriving DecidableEq

/-- The GetDay route handler.  idParam is the raw path segment; dateParam
is none when the date query parameter is absent (the only rejected case),
and some none when present but unparsable (an invalid date, which matches
no document).  A NaN user id likewise matches no document. -/
def getDayHandler (store : List Bucket) (idParam : String)
    (dateParam : Option (Option Int)) : GetDayResult :=
  let userId := parseIntJS idParam
  match dateParam with
  | none => GetDayResult.validationError
  | some day =>
    match store.find? (fun b => userId == some b.user.id && day == some b.day) with
    | some b => GetDayResult.ok b.events
    | none => GetDayResult.ok []

/-- Outcome of the status-update route. -/
inductive UpdateResult where
  | validationError : UpdateResult
  | notFound : UpdateResult
  | ok : UpdateResult
deriving DecidableEq

/-- The status-update route handler: requires every body field truthy
(absent, zero and empty-string values are all rejected the same way), then
runs the write and maps matchedCount zero to the not-found outcome. -/
def updateStatusHandler (store : List Bucket) (userId dt : Option Int)
    (tmpl trk ns : Option String) : UpdateResult × List Bucket :=
  match userId, dt, tmpl, trk, ns with
  | some u, some t, some tm, some tr, some n =>
    if u == 0 || t == 0 || tm == "" || tr == "" || n == "" then
      (UpdateResult.validationError, store)
    else
      let r := updateEventStatus store u t tm tr n
      (if r.2 then UpdateResult.ok else UpdateResult.notFound, r.1)
  | _, _, _, _, _ => (UpdateResult.validationError, store)

/-- A document of the flat user_comms collection, keyed by the composite
of user, tracking and template ids. -/
structure SchedRecord where
  rid : String
  content_end_time : Int
  created_at : Int
  dispatch_time : List Int
  final_score : ℚ
  planned_date_hour : Int
  relevance_score : ℚ
  sent_at : Int
  template_id : String
  tracking_id : String
  updated_at : Int
  user_id : Int
deriving DecidableEq

/-- Ascending user id: the sort order of the schedule-segment queries. -/
def byUserId (a b : SchedRecord) : Prop :=
  a.user_id ≤ b.user_id

instance : DecidableRel byUserId :=
  fun a b => inferInstanceAs (Decidable (a.user_id ≤ b.user_id))

instance : IsTotal SchedRecord byUserId :=
  ⟨fun a b => Int.le_total a.user_id b.user_id⟩

instance : IsTrans SchedRecord byUserId :=
  ⟨fun _ _ _ h1 h2 => le_trans h1 h2⟩

/-- Descending final score: the sort order of the user-schedule query. -/
def byScoreDesc (a b : SchedRecord) : Prop :=
  b.final_score ≤ a.final_score

instance : DecidableRel byScoreDesc :=
  fun a b => inferInstanceAs (Decidable (b.final_score ≤ a.final_score))

instance : IsTotal SchedRecord byScoreDesc :=
  ⟨fun a b => le_total b.final_score a.final_score⟩

instance : IsTrans SchedRecord byScoreDesc :=
  ⟨fun _ _ _ h1 h2 => le_trans h2 h1⟩

/-- The equality part of the schedule-segment query filter. -/
def schedMatch (trk tmpl : String) (pdh : Int) (r : SchedRecord) : Bool :=
  r.tracking_id == trk && r.template_id == tmpl && r.planned_date_hour == pdh

/-- The page size constant of the schedule-segment queries. -/
def SCHED_PAGE_SIZE : Nat := 500

/-- The ordered result stream of the first schedule-segment shape before
the limit: the pagination condition is added to the query only when the
cursor is truthy (absent and zero cursors are both treated as no cursor). -/
def scheduleStreamV1 (store : List SchedRecord) (trk tmpl : String) (pdh : Int)
    (lastUserId : Option Int) : List SchedRecord :=
  let base :=
    match lastUserId with
    | some c =>
      if c == 0 then store.filter (schedMatch trk tmpl pdh)
      else store.filter (fun r => schedMatch trk tmpl pdh r && decide (c < r.user_id))
    | none => store.filter (schedMatch trk tmpl pdh)
  List.insertionSort byUserId base

/-- GetScheduleSegment, first shape: sorted matching stream, limit, project
to user ids. -/
def getScheduleSegmentV1 (store : List SchedRecord) (trk tmpl : String) (pdh : Int)
    (lastUserId : Option Int) : List Int :=
  ((scheduleStreamV1 store trk tmpl pdh lastUserId).take SCHED_PAGE_SIZE).map
    (fun r => r.user_id)

/-- The ordered result stream of the second schedule-segment shape before
the limit: the cursor is always present in the query. -/
def scheduleStreamV2 (store : List SchedRecord) (trk tmpl : String) (pdh : Int)
    (lastUserId : Int) : List SchedRecord :=
  List.insertionSort byUserId
    (store.filter (fun r => schedMatch trk tmpl pdh r && decide (lastUserId < r.user_id)))

/-- GetScheduleSegment, second shape: sorted matching stream with the
cursor condition, limit, project to user ids. -/
def getScheduleSegmentV2 (store : List SchedRecord) (trk tmpl : String) (pdh : Int)
    (lastUserId : Int) : List Int :=
  ((scheduleStreamV2 store trk tmpl pdh lastUserId).take SCHED_PAGE_SIZE).map
    (fun r => r.user_id)

/-- GetUserSchedule: the user's records with planned_date_hour in the
inclusive range, sorted by final score descending. -/
def getUserSchedule (store : List SchedRecord) (uid startT endT : Int) : List SchedRecord :=
  List.insertionSort byScoreDesc
    (store.filter (fun r => r.user_id == uid
      && decide (startT ≤ r.planned_date_hour) && decide (r.planned_date_hour ≤ endT)))

/-- A matching event: dispatched at time 5 with template tm and tracking
tr. -/
def evA : Event :=
  { dispatch_time := 5, metadata := { tracking_id := "tr", template_id := "tm" },
    content_score := 1, status := "sent" }

/-- A second event with the same dispatch time, template and tracking ids
as evA but a different content score. -/
def evB : Event :=
  { dispatch_time := 5, metadata := { tracking_id := "tr", template_id := "tm" },
    content_score := 2, status := "sent" }

/-- An event matching none of the three event-level conditions used in the
examples below. -/
def evC : Event :=
  { dispatch_time := 6, metadata := { tracking_id := "other", template_id := "tmB" },
    content_score := 3, status := "sent" }

/-- An event matching the dispatch time and template conditions but not the
tracking condition. -/
def evD : Event :=
  { dispatch_time := 5, metadata := { tracking_id := "zz", template_id := "tm" },
    content_score := 4, status := "sent" }

/-- An event matching the tracking condition but not the dispatch time. -/
def evE : Event :=
  { dispatch_time := 6, metadata := { tracking_id := "tr", template_id := "qq" },
    content_score := 5, status := "sent" }

/-- One bucket whose two events both match the full status-update tuple. -/
def c3Store : List Bucket :=
  [{ user := { id := 1, type := some ("premium") }, day := 0, event_count := 2,
     expireAt := some 7, events := [evA, evB] }]

/-- A bucket with one fully matching event and one unrelated event. -/
def c3wBucket : Bucket :=
  { user := { id := 1, type := some ("premium") }, day := 0, event_count := 2,
    expireAt := some 7, events := [evA, evC] }

/-- A bucket that matches every dotted-path condition of the status-update
filter although no single event matches all three. -/
def c7Store : List Bucket :=
  [{ user := { id := 1, type := some ("premium") }, day := 0, event_count := 2,
     expireAt := some 7, events := [evD, evE] }]

/-- A bucket of user 1 none of whose events matches the tuple used in the
not-found witness. -/
def c7wStore : List Bucket :=
  [{ user := { id := 1, type := some ("premium") }, day := 0, event_count := 1,
     expireAt := some 7, events := [evC] }]

/-- A nonempty store used to show that a NaN user id reaches the query. -/
def c8Store : List Bucket :=
  [{ user := { id := 5, type := some ("trial") }, day := 0, event_count := 1,
     expireAt := some 7, events := [evA] }]

/-- A bucket of the given user carrying one event that matches the campaign
query with day 100 and hour start 200. -/
def cpBucket (u : Int) : Bucket :=
  { user := { id := u, type := some ("standard") }, day := 100, event_count := 1,
    expireAt := some 7,
    events := [{ dispatch_time := 250, metadata := { tracking_id := "tr", template_id := "tm" },
                 content_score := 1, status := "sent" }] }

/-- Two campaign-matching buckets, deliberately out of user-id order. -/
def c1Store : List Bucket :=
  [cpBucket 3, cpBucket 1]

/-- A store none of whose buckets matches a query for day 999. -/
def c2wStore : List Bucket :=
  [cpBucket 3]

/-- A schedule record of user 42 with the given planned hour and final
score. -/
def mkSched42 (pdh : Int) (score : ℚ) : SchedRecord :=
  { rid := "", content_end_time := 0, created_at := 0, dispatch_time := [],
    final_score := score, planned_date_hour := pdh, relevance_score := 0, sent_at := 0,
    template_id := "tm", tracking_id := "tr", updated_at := 0, user_id := 42 }

/-- The three schedule records of the concrete user-schedule example. -/
def c9Store : List SchedRecord :=
  [mkSched42 2000 0.8, mkSched42 800 0.9, mkSched42 1200 0.6]

/-- A schedule record with the given user id, matching the segment query
for tracking tr, template tm and planned hour 100. -/
def mkSeg (n : Int) : SchedRecord :=
  { rid := "", content_end_time := 0, created_at := 0, dispatch_time := [],
    final_score := 0, planned_date_hour := 100, relevance_score := 0, sent_at := 0,
    template_id := "tm", tracking_id := "tr", updated_at := 0, user_id := n }

/-- 501 matching segment records with user ids 1 through 501: one more
than the page size, so the initial page cannot see the last record. -/
def c10Store : List SchedRecord :=
  (List.range 501).map (fun i => mkSeg ((i : Int) + 1))

/-- A small matching segment store for the witness below. -/
def c10wStore : List SchedRecord :=
  [mkSeg 1, mkSeg 2, mkSeg 3]

/-- Two append calls used by the accumulation witness. -/
def c5Calls : List AppendCall :=
  [{ userType := "premium", expireAt := 7, events := [evA] },
   { userType := "standard", expireAt := 7, events := [evA, evB] }]

/-- After an upsert whose rewrite and insert document both satisfy the
filter, the first matching document is the rewritten (or inserted) one. -/
theorem find?_updateOneUpsert (l : List Bucket) (p : Bucket → Bool) (f : Bucket → Bucket)
    (ins : Bucket) (hf : ∀ b, p b = true → p (f b) = true) (hins : p ins = true) :
    (updateOneUpsert l p f ins).find? p
      = some (match l.find? p with | some b => f b | none => ins) := by
  induction l with
  | nil => simp [updateOneUpsert, List.find?_cons, hins]
  | cons b rest ih =>
    cases hb : p b with
    | true => simp [updateOneUpsert, hb, List.find?_cons, hf b hb]
    | false => simp [updateOneUpsert, hb, List.find?_cons, ih]

/-- C6: after ReplaceDay(user, day, E), GetDay(user, day) returns exactly E,
whatever the prior state of the store, including when no bucket existed for
that user and day. -/
theorem replace_then_get (store : List Bucket) (uid day : Int) (e : List Event) :
    getDay (replaceDay store uid day e) uid day = e := by
  have hfind := find?_updateOneUpsert store (bucketKey uid day)
    (fun b => { b with events := e.map (fun c => { c with dispatch_time := c.dispatch_time }),
                       event_count := ((e.map (fun c => { c with dispatch_time := c.dispatch_time })).length : Int) })
    { user := { id := uid, type := none }, day := day,
      event_count := ((e.map (fun c => { c with dispatch_time := c.dispatch_time })).length : Int),
      expireAt := none,
      events := e.map (fun c => { c with dispatch_time := c.dispatch_time }) }
    (fun b hb => hb)
    (by simp [bucketKey])
  unfold getDay findBucket replaceDay
  rw [hfind]
  cases store.find? (bucketKey uid day) with
  | none => simp
  | some b => simp

/-- The bucket found after one append call: the prior bucket with the new
events pushed and the count incremented, or the freshly inserted bucket. -/
theorem findBucket_appendEvents (store : List Bucket) (uid : Int) (utype : String)
    (day expAt : Int) (evs : List Event) :
    findBucket (appendEvents store uid utype day expAt evs) uid day
      = some (match findBucket store uid day with
              | some b => { b with events := b.events ++ evs,
                                   event_count := b.event_count + (evs.length : Int) }
              | none => { user := { id := uid, type := some utype }, day := day,
                          event_count := (evs.length : Int), expireAt := some expAt,
                          events := evs }) := by
  unfold findBucket appendEvents
  exact find?_updateOneUpsert store (bucketKey uid day) _ _ (fun b hb => hb)
    (by simp [bucketKey])

/-- Accumulation of a call sequence over an already existing bucket. -/
theorem applyAppends_acc (uid day : Int) (calls : List AppendCall) :
    ∀ (store : List Bucket) (b : Bucket), findBucket store uid day = some b →
      ∃ b2, findBucket (applyAppends store uid day calls) uid day = some b2
        ∧ b2.event_count = b.event_count + ((calls.map (fun c => c.events.length)).sum : Int)
        ∧ b2.events.length = b.events.length + (calls.map (fun c => c.events.length)).sum := by
  induction calls with
  | nil =>
    intro store b hb
    exact ⟨b, by simpa [applyAppends] using hb, by simp, by simp⟩
  | cons c cs ih =>
    intro store b hb
    have h1 := findBucket_appendEvents store uid c.userType day c.expireAt c.events
    rw [hb] at h1
    obtain ⟨b2, hb2, hc2, hl2⟩ :=
      ih (appendEvents store uid c.userType day c.expireAt c.events) _ h1
    refine ⟨b2, by simpa [applyAppends] using hb2, ?_, ?_⟩
    · rw [hc2]
      simp only [List.map_cons, List.sum_cons]
      omega
    · rw [hl2]
      simp only [List.length_append, List.map_cons, List.sum_cons]
      omega

/-- C5: for every sequence of AppendEvents calls against a fresh
(user, day), the final bucket's event count equals the sum of the appended
counts and the events array length equals the event count. -/
theorem append_accumulation (store : List Bucket) (uid day : Int) (calls : List AppendCall)
    (h0 : findBucket store uid day = none) (hne : calls ≠ []) :
    ∃ b, findBucket (applyAppends store uid day calls) uid day = some b
      ∧ b.event_count = ((calls.map (fun c => c.events.length)).sum : Int)
      ∧ b.events.length = (calls.map (fun c => c.events.length)).sum := by
  cases calls with
  | nil => exact absurd rfl hne
  | cons c cs =>
    have h1 := findBucket_appendEvents store uid c.userType day c.expireAt c.events
    rw [h0] at h1
    obtain ⟨b2, hb2, hc2, hl2⟩ :=
      applyAppends_acc uid day cs (appendEvents store uid c.userType day c.expireAt c.events) _ h1
    refine ⟨b2, by simpa [applyAppends] using hb2, ?_, ?_⟩
    · rw [hc2]
      simp only [List.map_cons, List.sum_cons]
    · rw [hl2]
      simp only [List.map_cons, List.sum_cons]

/-- A bucket none of whose events meets the element condition is left
untouched by the arrayFilters update. -/
theorem applyStatusTo_id (dt : Int) (tmpl trk ns : String) (b : Bucket)
    (hev : ∀ e ∈ b.events, elemCond dt tmpl trk e = false) :
    applyStatusTo dt tmpl trk ns b = b := by
  unfold applyStatusTo
  have hm : b.events.map (fun e => if elemCond dt tmpl trk e then { e with status := ns } else e)
      = b.events := by
    rw [List.map_congr_left (fun e he => by rw [if_neg (by simp [hev e he])])]
    exact List.map_id b.events
  rw [hm]

/-- updateFirst reports no match exactly when no document passes the
filter. -/
theorem updateFirst_matched (l : List Bucket) (p : Bucket → Bool) (f : Bucket → Bucket) :
    (updateFirst l p f).2 = false ↔ ∀ b ∈ l, p b = false := by
  induction l with
  | nil => simp [updateFirst]
  | cons b rest ih =>
    cases hb : p b with
    | true => simp [updateFirst, hb]
    | false => simp [updateFirst, hb, ih]

/-- C3 counterexample: with two events carrying the same dispatch time,
template and tracking ids in one bucket, a single status update rewrites
the status of both of them, not of exactly one. -/
theorem status_update_modifies_two_events :
    ((updateEventStatus c3Store 1 5 "tm" "tr" "opened").1.map
        (fun b => b.events.map (fun e => e.status))) = [["opened", "opened"]]
      ∧ c3Store.map (fun b => b.events.map (fun e => e.status)) = [["sent", "sent"]]
      ∧ (updateEventStatus c3Store 1 5 "tm" "tr" "opened").2 = true := by
  decide

/-- C3 as amended: the update rewrites the first bucket passing the
dotted-path filter; inside it, every event satisfying the three-field
element condition gets the new status and keeps all other fields, every
other event is unchanged in every field, and every other bucket is
unchanged. -/
theorem status_update_sets_all_matching (pre post : List Bucket) (b : Bucket) (uid dt : Int)
    (tmpl trk ns : String)
    (hpre : ∀ x ∈ pre, statusFilter uid dt tmpl trk x = false)
    (hb : statusFilter uid dt tmpl trk b = true) :
    updateEventStatus (pre ++ b :: post) uid dt tmpl trk ns
      = (pre ++ applyStatusTo dt tmpl trk ns b :: post, true)
      ∧ List.Forall₂ (fun e e2 =>
          (elemCond dt tmpl trk e = true ∧ e2 = { e with status := ns })
            ∨ (elemCond dt tmpl trk e = false ∧ e2 = e))
        b.events (applyStatusTo dt tmpl trk ns b).events := by
  constructor
  · induction pre with
    | nil => simp [updateEventStatus, updateFirst, hb]
    | cons x xs ih =>
      have hx : statusFilter uid dt tmpl trk x = false := hpre x (by simp)
      have ihx := ih (fun y hy => hpre y (by simp [hy]))
      simp only [updateEventStatus, List.cons_append, updateFirst, hx] at ihx ⊢
      simp only [Bool.false_eq_true, if_false]
      rw [Prod.ext_iff] at ihx ⊢
      simpa using ihx
  · unfold applyStatusTo
    simp only
    induction b.events with
    | nil => exact List.Forall₂.nil
    | cons e es ih =>
      rw [List.map_cons]
      refine List.Forall₂.cons ?_ ih
      cases he : elemCond dt tmpl trk e with
      | true => exact Or.inl ⟨rfl, by rw [if_pos rfl]⟩
      | false => exact Or.inr ⟨rfl, by rw [if_neg (by simp)]⟩

/-- Witness for status_update_sets_all_matching: a bucket with one
matching and one unrelated event. -/
theorem status_update_sets_all_matching_inst :
    (∀ x ∈ ([] : List Bucket), statusFilter 1 5 "tm" "tr" x = false)
      ∧ statusFilter 1 5 "tm" "tr" c3wBucket = true
      ∧ (updateEventStatus ([] ++ c3wBucket :: []) 1 5 "tm" "tr" "opened"
          = ([] ++ applyStatusTo 5 "tm" "tr" "opened" c3wBucket :: [], true)
        ∧ List.Forall₂ (fun e e2 =>
            (elemCond 5 "tm" "tr" e = true ∧ e2 = { e with status := "opened" })
              ∨ (elemCond 5 "tm" "tr" e = false ∧ e2 = e))
          c3wBucket.events (applyStatusTo 5 "tm" "tr" "opened" c3wBucket).events) :=
  ⟨by simp, by decide,
   status_update_sets_all_matching [] [] c3wBucket 1 5 "tm" "tr" "opened"
     (by simp) (by decide)⟩

/-- C7 counterexample: a tuple that matches no single stored event can
still match the dotted-path filter through different events, so the call
reports a match (success) instead of not-found; the store is unchanged. -/
theorem status_update_cross_match_reports_found :
    (updateEventStatus c7Store 1 5 "tm" "tr" "opened").2 = true
      ∧ (updateEventStatus c7Store 1 5 "tm" "tr" "opened").1 = c7Store
      ∧ (∀ b ∈ c7Store, ∀ e ∈ b.events,
          ¬(b.user.id = 1 ∧ e.dispatch_time = 5 ∧ e.metadata.template_id = "tm"
            ∧ e.metadata.tracking_id = "tr")) := by
  decide

/-- C7 as amended: when no event of the user meets the three-field element
condition, the store is left completely unchanged (even if the dotted-path
filter matches a bucket and the call reports success), and not-found is
reported exactly when no bucket passes the dotted-path filter. -/
theorem status_update_not_found_frame (store : List Bucket) (uid dt : Int)
    (tmpl trk ns : String)
    (h : ∀ b ∈ store, b.user.id = uid → ∀ e ∈ b.events, elemCond dt tmpl trk e = false) :
    (updateEventStatus store uid dt tmpl trk ns).1 = store
      ∧ ((updateEventStatus store uid dt tmpl trk ns).2 = false
        ↔ ∀ b ∈ store, statusFilter uid dt tmpl trk b = false) := by
  refine ⟨?_, updateFirst_matched store _ _⟩
  induction store with
  | nil => rfl
  | cons b rest ih =>
    cases hb : statusFilter uid dt tmpl trk b with
    | true =>
      have hid : b.user.id = uid := by
        have := hb
        simp only [statusFilter, Bool.and_eq_true, beq_iff_eq] at this
        exact this.1.1.1
      have hfix := applyStatusTo_id dt tmpl trk ns b (h b (by simp) hid)
      simp [updateEventStatus, updateFirst, hb, hfix]
    | false =>
      have ihr := ih (fun y hy => h y (by simp [hy]))
      simp only [updateEventStatus, updateFirst, hb] at ihr ⊢
      simp [ihr]

/-- Witness for status_update_not_found_frame: a user bucket with no event
matching the tuple; the call reports not-found and changes nothing. -/
theorem status_update_not_found_frame_inst :
    (∀ b ∈ c7wStore, b.user.id = 1 → ∀ e ∈ b.events, elemCond 5 "tm" "tr" e = false)
      ∧ ((updateEventStatus c7wStore 1 5 "tm" "tr" "opened").1 = c7wStore
        ∧ ((updateEventStatus c7wStore 1 5 "tm" "tr" "opened").2 = false
          ↔ ∀ b ∈ c7wStore, statusFilter 1 5 "tm" "tr" b = false)) :=
  ⟨by decide, status_update_not_found_frame c7wStore 1 5 "tm" "tr" "opened" (by decide)⟩

/-- Witness for append_accumulation at a concrete pair of calls. -/
theorem append_accumulation_inst :
    findBucket [] 1 2 = none ∧ c5Calls ≠ []
      ∧ ∃ b, findBucket (applyAppends [] 1 2 c5Calls) 1 2 = some b
        ∧ b.event_count = (((c5Calls.map (fun c => c.events.length)).sum : Nat) : Int)
        ∧ b.events.length = (c5Calls.map (fun c => c.events.length)).sum :=
  ⟨rfl, by decide, append_accumulation [] 1 2 c5Calls rfl (by decide)⟩

/-- Every document of an upserted store is an original document, a
rewritten original, or the insert document. -/
theorem mem_updateOneUpsert (l : List Bucket) (p : Bucket → Bool) (f : Bucket → Bucket)
    (ins : Bucket) :
    ∀ x ∈ updateOneUpsert l p f ins, x ∈ l ∨ (∃ b ∈ l, x = f b) ∨ x = ins := by
  induction l with
  | nil =>
    intro x hx
    simp only [updateOneUpsert, List.mem_singleton] at hx
    exact Or.inr (Or.inr hx)
  | cons b rest ih =>
    intro x hx
    cases hb : p b with
    | true =>
      simp only [updateOneUpsert, hb, if_true, List.mem_cons] at hx
      rcases hx with hx | hx
      · exact Or.inr (Or.inl ⟨b, by simp, hx⟩)
      · exact Or.inl (by simp [hx])
    | false =>
      simp only [updateOneUpsert, hb, Bool.false_eq_true, if_false, List.mem_cons] at hx
      rcases hx with hx | hx
      · exact Or.inl (by simp [hx])
      · rcases ih x hx with h1 | ⟨y, hy, hxy⟩ | h3
        · exact Or.inl (by simp [h1])
        · exact Or.inr (Or.inl ⟨y, by simp [hy], hxy⟩)
        · exact Or.inr (Or.inr h3)

/-- An upsert whose rewrite preserves the key fields and whose insert
document clashes with no unmatched original preserves key uniqueness. -/
theorem uniqueKeys_updateOneUpsert (l : List Bucket) (p : Bucket → Bool) (f : Bucket → Bucket)
    (ins : Bucket) (hl : uniqueKeys l)
    (hfu : ∀ b, (f b).user.id = b.user.id) (hfd : ∀ b, (f b).day = b.day)
    (hins : ∀ b ∈ l, p b = false → ¬(b.user.id = ins.user.id ∧ b.day = ins.day)) :
    uniqueKeys (updateOneUpsert l p f ins) := by
  induction l with
  | nil =>
    simp [updateOneUpsert, uniqueKeys]
  | cons b rest ih =>
    rw [uniqueKeys, List.pairwise_cons] at hl
    obtain ⟨hb1, hb2⟩ := hl
    cases hb : p b with
    | true =>
      simp only [updateOneUpsert, hb, if_true]
      rw [uniqueKeys, List.pairwise_cons]
      exact ⟨fun x hx => by rw [hfu b, hfd b]; exact hb1 x hx, hb2⟩
    | false =>
      simp only [updateOneUpsert, hb, Bool.false_eq_true, if_false]
      rw [uniqueKeys, List.pairwise_cons]
      refine ⟨?_, ih hb2 (fun y hy hpy => hins y (by simp [hy]) hpy)⟩
      intro x hx
      rcases mem_updateOneUpsert rest p f ins x hx with h1 | ⟨y, hy, hxy⟩ | h3
      · exact hb1 x h1
      · rw [hxy, hfu y, hfd y]
        exact hb1 y hy
      · rw [h3]
        exact hins b (by simp) hb

/-- An upsert whose rewrite preserves non-emptiness and whose insert
document is non-empty preserves the no-empty-bucket invariant. -/
theorem noEmpty_updateOneUpsert (l : List Bucket) (p : Bucket → Bool) (f : Bucket → Bucket)
    (ins : Bucket) (hl : noEmpty l)
    (hf : ∀ b, b.events ≠ [] → (f b).events ≠ []) (hins : ins.events ≠ []) :
    noEmpty (updateOneUpsert l p f ins) := by
  intro x hx
  rcases mem_updateOneUpsert l p f ins x hx with h1 | ⟨y, hy, hxy⟩ | h3
  · exact hl x h1
  · rw [hxy]
    exact hf y (hl y hy)
  · rw [h3]
    exact hins

/-- C4 counterexample: ReplaceDay with an empty event list against an
absent bucket creates a bucket whose events array is empty. -/
theorem replace_empty_creates_empty_bucket :
    replaceDay [] 7 100 []
        = [{ user := { id := 7, type := none }, day := 100, event_count := 0,
             expireAt := none, events := [] }]
      ∧ ({ user := { id := 7, type := none }, day := 100, event_count := 0,
           expireAt := none, events := [] } : Bucket).events = [] := by
  constructor
  · rfl
  · rfl

/-- C4 as amended: append and replace preserve the one-bucket-per-key
invariant; a bucket created by an append with at least one event or by a
replace with a non-empty list is non-empty, but a replace (or append) with
an empty list can create an empty bucket, as the counterexample shows. -/
theorem bucket_creation_invariants (store : List Bucket) (uid : Int) (utype : String)
    (day expAt : Int) (evs e2 : List Event) :
    (uniqueKeys store →
        uniqueKeys (appendEvents store uid utype day expAt evs)
        ∧ uniqueKeys (replaceDay store uid day e2))
      ∧ (noEmpty store → evs ≠ [] → noEmpty (appendEvents store uid utype day expAt evs))
      ∧ (noEmpty store → e2 ≠ [] → noEmpty (replaceDay store uid day e2)) := by
  have hkey : ∀ b : Bucket, bucketKey uid day b = false
      → ¬(b.user.id = uid ∧ b.day = day) := by
    intro b hb
    simp only [bucketKey, Bool.and_eq_false_iff, beq_eq_false_iff_ne, ne_eq] at hb
    tauto
  refine ⟨fun hu => ⟨?_, ?_⟩, fun hn hne => ?_, fun hn hne => ?_⟩
  · exact uniqueKeys_updateOneUpsert store _ _ _ hu (fun b => rfl) (fun b => rfl)
      (fun b hb hpb => hkey b hpb)
  · exact uniqueKeys_updateOneUpsert store _ _ _ hu (fun b => rfl) (fun b => rfl)
      (fun b hb hpb => hkey b hpb)
  · exact noEmpty_updateOneUpsert store _ _ _ hn
      (fun b hb => by simpa using fun h1 _ => hb h1) hne
  · refine noEmpty_updateOneUpsert store _ _ _ hn (fun b hb => ?_) (by simpa using hne)
    simpa using hne

/-- Witness for bucket_creation_invariants at a concrete store and calls. -/
theorem bucket_creation_invariants_inst :
    uniqueKeys c8Store ∧ noEmpty c8Store ∧ ([evA] : List Event) ≠ []
      ∧ (uniqueKeys (appendEvents c8Store 1 "premium" 0 7 [evA])
          ∧ uniqueKeys (replaceDay c8Store 1 0 [evA]))
      ∧ noEmpty (appendEvents c8Store 1 "premium" 0 7 [evA])
      ∧ noEmpty (replaceDay c8Store 1 0 [evA]) := by
  have hu : uniqueKeys c8Store := by
    rw [uniqueKeys]
    simp [c8Store]
  have hn : noEmpty c8Store := by
    intro b hb
    simp only [c8Store, List.mem_singleton] at hb
    simp [hb]
  have hne : ([evA] : List Event) ≠ [] := by simp
  obtain ⟨h1, h2, h3⟩ := bucket_creation_invariants c8Store 1 "premium" 0 7 [evA] [evA]
  exact ⟨hu, hn, hne, h1 hu, h2 hn hne, h3 hn hne⟩

/-- C8 counterexample: a GetDay request with a non-numeric user id and a
well-formed date is not rejected as a validation error; the query runs
against the (non-empty) store and succeeds with an empty result. -/
theorem getday_nonnumeric_id_not_rejected :
    parseIntJS ("abc") = none
      ∧ getDayHandler c8Store ("abc") (some (some 0)) = GetDayResult.ok []
      ∧ getDayHandler c8Store ("abc") (some (some 0)) ≠ GetDayResult.validationError
      ∧ c8Store ≠ [] := by
  refine ⟨rfl, rfl, ?_, ?_⟩
  · decide
  · decide

/-- C8 as amended: the handlers reject only missing (or falsy) required
fields before touching the store; a present but malformed identifier is
not rejected: a NaN user id makes the GetDay query match nothing, so the
call succeeds with an empty event list. -/
theorem handler_validation_behavior (store : List Bucket) (idParam : String) (d : Int)
    (dt : Option Int) (tmpl trk ns : Option String) :
    getDayHandler store idParam none = GetDayResult.validationError
      ∧ (parseIntJS idParam = none →
          getDayHandler store idParam (some (some d)) = GetDayResult.ok [])
      ∧ updateStatusHandler store none dt tmpl trk ns = (UpdateResult.validationError, store)
      ∧ updateStatusHandler store (some 0) dt tmpl trk ns
          = (UpdateResult.validationError, store) := by
  refine ⟨rfl, ?_, ?_, ?_⟩
  · intro hp
    have hfind : store.find?
        (fun b => parseIntJS idParam == some b.user.id && some d == some b.day) = none := by
      rw [List.find?_eq_none]
      intro b _
      simp [hp]
    simp only [getDayHandler, hfind]
  · cases dt <;> cases tmpl <;> cases trk <;> cases ns <;> rfl
  · cases dt with
    | none => rfl
    | some t =>
      cases tmpl with
      | none => rfl
      | some tm =>
        cases trk with
        | none => rfl
        | some tr =>
          cases ns with
          | none => rfl
          | some n => simp [updateStatusHandler]

/-- Witness for handler_validation_behavior at a concrete malformed id. -/
theorem handler_validation_behavior_inst :
    parseIntJS ("xyz") = none
      ∧ getDayHandler c8Store ("xyz") (some (some 3)) = GetDayResult.ok [] :=
  ⟨by decide,
   (handler_validation_behavior c8Store ("xyz") 3 none none none none).2.1 (by decide)⟩

/-- The distinct-user page written without the probe element: the data is
the first pageSize available ids, hasMore says whether more than pageSize
ids are available, and the cursor is the last id of the page. -/
theorem campaignDistinctUsers_eq (store : List Bucket) (day hStart : Int) (tmpl trk : String)
    (c : Option Int) (n : Nat) :
    campaignDistinctUsers store day hStart tmpl trk c n
      = { data := (cursorFilter c (campaignSortedIds store day hStart tmpl trk)).take n,
          hasMore :=
            decide (n < (cursorFilter c (campaignSortedIds store day hStart tmpl trk)).length),
          lastUserId :=
            ((cursorFilter c (campaignSortedIds store day hStart tmpl trk)).take n).getLast? } := by
  unfold campaignDistinctUsers
  have hdata : ∀ t : List Int, (t.take (n + 1)).take n = t.take n := by
    intro t
    rw [List.take_take]
    congr 1
    omega
  have hmore : ∀ t : List Int,
      decide (n < (t.take (n + 1)).length) = decide (n < t.length) := by
    intro t
    rw [decide_eq_decide, List.length_take]
    omega
  simp only [hdata, hmore]

/-- The available id stream is strictly ascending (sorted with no
duplicates). -/
theorem campaignSortedIds_sorted (store : List Bucket) (day hStart : Int) (tmpl trk : String) :
    (campaignSortedIds store day hStart tmpl trk).Pairwise (fun a b : Int => a < b) := by
  have hs : (campaignSortedIds store day hStart tmpl trk).Pairwise (fun a b : Int => a ≤ b) :=
    List.sorted_insertionSort _ _
  have hn : (campaignSortedIds store day hStart tmpl trk).Nodup := by
    unfold campaignSortedIds
    exact (List.perm_insertionSort _ _).nodup_iff.mpr (List.nodup_dedup _)
  exact (hs.and hn).imp (fun h => lt_of_le_of_ne h.1 h.2)

/-- Membership in the id stream is exactly having a matching bucket with a
matching event. -/
theorem mem_campaignSortedIds (store : List Bucket) (day hStart : Int) (tmpl trk : String)
    (u : Int) :
    u ∈ campaignSortedIds store day hStart tmpl trk
      ↔ ∃ b, b ∈ store ∧ b.user.id = u ∧ b.day = day
          ∧ ∃ e, e ∈ b.events ∧ hStart ≤ e.dispatch_time
              ∧ e.dispatch_time < hStart + 3600000
              ∧ e.metadata.template_id = tmpl ∧ e.metadata.tracking_id = trk := by
  unfold campaignSortedIds
  simp only [List.mem_insertionSort, List.mem_dedup, List.mem_map, List.mem_filter,
    campaignMatch, eventHourMatch, List.any_eq_true, Bool.and_eq_true, beq_iff_eq,
    decide_eq_true_eq]
  constructor
  · rintro ⟨b, ⟨hb, hday, e, he, hh⟩, rfl⟩
    exact ⟨b, hb, rfl, hday, e, he, hh.1.1.1, hh.1.1.2, hh.1.2, hh.2⟩
  · rintro ⟨b, hb, rfl, hday, e, he, h1, h2, h3, h4⟩
    exact ⟨b, ⟨hb, hday, e, he, ⟨⟨⟨h1, h2⟩, h3⟩, h4⟩⟩, rfl⟩

/-- When no bucket matches, the id stream is empty. -/
theorem campaignSortedIds_nil (store : List Bucket) (day hStart : Int) (tmpl trk : String)
    (h : ∀ b ∈ store, campaignMatch day hStart tmpl trk b = false) :
    campaignSortedIds store day hStart tmpl trk = [] := by
  unfold campaignSortedIds
  have hf : store.filter (campaignMatch day hStart tmpl trk) = [] := by
    rw [List.filter_eq_nil_iff]
    intro b hb
    simp [h b hb]
  rw [hf]
  rfl

/-- The keyset stage on an empty stream. -/
theorem cursorFilter_nil (c : Option Int) : cursorFilter c [] = [] := by
  cases c <;> rfl

/-- C2: a page takes pageSize + 1 results after sorting and cursor
filtering and drops the probe: the data is the first pageSize available
results, hasMore holds exactly when a (pageSize+1)-th result existed, the
cursor is the last id actually returned, and a query matching zero buckets
yields an empty page with hasMore false and a null cursor. -/
theorem campaign_page_structure (store : List Bucket) (day hStart : Int) (tmpl trk : String)
    (c : Option Int) (n : Nat) :
    (campaignDistinctUsers store day hStart tmpl trk c n).data
        = (cursorFilter c (campaignSortedIds store day hStart tmpl trk)).take n
      ∧ ((campaignDistinctUsers store day hStart tmpl trk c n).hasMore = true
          ↔ n < (cursorFilter c (campaignSortedIds store day hStart tmpl trk)).length)
      ∧ (campaignDistinctUsers store day hStart tmpl trk c n).lastUserId
          = (campaignDistinctUsers store day hStart tmpl trk c n).data.getLast?
      ∧ ((∀ b ∈ store, campaignMatch day hStart tmpl trk b = false) →
          (campaignDistinctUsers store day hStart tmpl trk c n).data = []
            ∧ (campaignDistinctUsers store day hStart tmpl trk c n).hasMore = false
            ∧ (campaignDistinctUsers store day hStart tmpl trk c n).lastUserId = none) := by
  rw [campaignDistinctUsers_eq]
  refine ⟨rfl, by simp, rfl, ?_⟩
  intro h
  rw [campaignSortedIds_nil store day hStart tmpl trk h, cursorFilter_nil]
  simp

/-- Witness for campaign_page_structure: a store whose single bucket does
not match a day-999 query. -/
theorem campaign_page_structure_inst :
    (∀ b ∈ c2wStore, campaignMatch 999 200 ("tm") ("tr") b = false)
      ∧ ((campaignDistinctUsers c2wStore 999 200 ("tm") ("tr") none 10).data = []
        ∧ (campaignDistinctUsers c2wStore 999 200 ("tm") ("tr") none 10).hasMore = false
        ∧ (campaignDistinctUsers c2wStore 999 200 ("tm") ("tr") none 10).lastUserId = none) :=
  ⟨by decide,
   (campaign_page_structure c2wStore 999 200 ("tm") ("tr") none 10).2.2.2 (by decide)⟩

/-- In a strictly ascending list, every element is at most the last one. -/
theorem le_getLast?_of_strict : ∀ {l : List Int},
    l.Pairwise (fun a b : Int => a < b) →
    ∀ {c : Int}, l.getLast? = some c → ∀ a ∈ l, a ≤ c := by
  intro l
  induction l with
  | nil =>
    intro _ c hc
    simp at hc
  | cons x xs ih =>
    intro hpw c hc a ha
    cases xs with
    | nil =>
      simp only [List.getLast?_singleton, Option.some.injEq] at hc
      simp only [List.mem_singleton] at ha
      rw [ha, hc]
    | cons y ys =>
      rw [List.getLast?_cons_cons] at hc
      rw [List.pairwise_cons] at hpw
      rcases List.mem_cons.mp ha with rfl | ha2
      · exact le_of_lt (hpw.1 c (List.mem_of_mem_getLast? hc))
      · exact ih hpw.2 hc a ha2

/-- The keyset stage preserves strict ascending order. -/
theorem cursorFilter_pairwise (s : List Int) (hs : s.Pairwise (fun a b : Int => a < b))
    (c : Option Int) : (cursorFilter c s).Pairwise (fun a b : Int => a < b) := by
  cases c with
  | none => exact hs
  | some v => exact hs.filter _

/-- Advancing the cursor to an id of the current stream composes the two
keyset predicates. -/
theorem cursorFilter_some_eq (s : List Int) (c : Option Int) (v : Int)
    (hv : v ∈ cursorFilter c s) :
    cursorFilter (some v) s = (cursorFilter c s).filter (fun u => decide (v < u)) := by
  cases c with
  | none => rfl
  | some w =>
    have hwv : w < v := by
      simp only [cursorFilter, List.mem_filter, decide_eq_true_eq] at hv
      exact hv.2
    show s.filter (fun u => decide (v < u))
      = (s.filter (fun u => decide (w < u))).filter (fun u => decide (v < u))
    rw [List.filter_filter]
    apply List.filter_congr
    intro u _
    rcases lt_or_le v u with h | h
    · simp [h, lt_trans hwv h]
    · simp [not_lt.mpr h]

/-- Filtering a strictly ascending list past the last element of its take
is exactly its drop. -/
theorem filter_gt_getLast_take (t : List Int) (ht : t.Pairwise (fun a b : Int => a < b))
    (n : Nat) (v : Int) (hgl : (t.take n).getLast? = some v) :
    t.filter (fun u => decide (v < u)) = t.drop n := by
  have hsplit : t.take n ++ t.drop n = t := List.take_append_drop n t
  have hpw : (t.take n ++ t.drop n).Pairwise (fun a b : Int => a < b) := by
    rw [hsplit]
    exact ht
  obtain ⟨pwU, _, hUV⟩ := List.pairwise_append.mp hpw
  have hvmem : v ∈ t.take n := List.mem_of_mem_getLast? hgl
  have hle : ∀ a ∈ t.take n, a ≤ v := le_getLast?_of_strict pwU hgl
  calc t.filter (fun u => decide (v < u))
      = (t.take n ++ t.drop n).filter (fun u => decide (v < u)) := by rw [hsplit]
    _ = (t.take n).filter (fun u => decide (v < u))
          ++ (t.drop n).filter (fun u => decide (v < u)) := List.filter_append _ _
    _ = [] ++ t.drop n := by
        congr 1
        · rw [List.filter_eq_nil_iff]
          intro a ha
          simp only [decide_eq_true_eq]
          exact not_lt.mpr (hle a ha)
        · rw [List.filter_eq_self]
          intro a ha
          simp only [decide_eq_true_eq]
          exact hUV v hvmem a ha
    _ = t.drop n := List.nil_append _

/-- Feeding the last returned id back as the cursor continues the stream at
exactly the drop of the page just served. -/
theorem cursorFilter_next (s : List Int) (hs : s.Pairwise (fun a b : Int => a < b))
    (c : Option Int) (n : Nat) (v : Int)
    (hgl : ((cursorFilter c s).take n).getLast? = some v) :
    cursorFilter (some v) s = (cursorFilter c s).drop n := by
  have hvmem : v ∈ cursorFilter c s :=
    List.mem_of_mem_take (List.mem_of_mem_getLast? hgl)
  rw [cursorFilter_some_eq s c v hvmem]
  exact filter_gt_getLast_take _ (cursorFilter_pairwise s hs c) n v hgl

/-- With enough fuel, the pagination loop returns the accumulator followed
by the whole remaining stream. -/
theorem paginate_run (store : List Bucket) (day hStart : Int) (tmpl trk : String)
    (n : Nat) (hn : 0 < n) :
    ∀ (fuel : Nat) (c : Option Int) (acc : List Int),
      (cursorFilter c (campaignSortedIds store day hStart tmpl trk)).length ≤ fuel + n →
      paginateCampaign store day hStart tmpl trk n fuel c acc
        = some (acc ++ cursorFilter c (campaignSortedIds store day hStart tmpl trk)) := by
  have hs := campaignSortedIds_sorted store day hStart tmpl trk
  intro fuel
  induction fuel with
  | zero =>
    intro c acc hlen
    have hnm : ¬(n < (cursorFilter c (campaignSortedIds store day hStart tmpl trk)).length) := by
      omega
    simp only [paginateCampaign, campaignDistinctUsers_eq]
    rw [if_neg (by simpa using hnm), List.take_of_length_le (by omega)]
  | succ fuel ih =>
    intro c acc hlen
    by_cases hmore : n < (cursorFilter c (campaignSortedIds store day hStart tmpl trk)).length
    · have htake_len :
          ((cursorFilter c (campaignSortedIds store day hStart tmpl trk)).take n).length = n := by
        rw [List.length_take]
        omega
      obtain ⟨v, hv⟩ : ∃ v,
          ((cursorFilter c (campaignSortedIds store day hStart tmpl trk)).take n).getLast?
            = some v := by
        cases hgl : ((cursorFilter c (campaignSortedIds store day hStart tmpl trk)).take
            n).getLast? with
        | none =>
          rw [List.getLast?_eq_none_iff.mp hgl] at htake_len
          simp at htake_len
          omega
        | some v => exact ⟨v, rfl⟩
      have hnext := cursorFilter_next (campaignSortedIds store day hStart tmpl trk) hs c n v hv
      have step : paginateCampaign store day hStart tmpl trk n (fuel + 1) c acc
          = paginateCampaign store day hStart tmpl trk n fuel (some v)
              (acc ++ (cursorFilter c (campaignSortedIds store day hStart tmpl trk)).take n) := by
        simp only [paginateCampaign, campaignDistinctUsers_eq]
        rw [if_pos (by simpa using hmore), hv]
      rw [step, ih (some v) _ (by rw [hnext, List.length_drop]; omega), hnext,
        List.append_assoc, List.take_append_drop]
    · simp only [paginateCampaign, campaignDistinctUsers_eq]
      rw [if_neg (by simpa using hmore), List.take_of_length_le (by omega)]

/-- C1: for every store and every positive page size, the pagination loop
over CampaignDistinctUsers terminates with exactly the distinct user ids
having a matching event in the hour window on that day, each exactly once,
in strictly ascending order. -/
theorem campaign_pagination_yields_sorted_distinct (store : List Bucket) (day hStart : Int)
    (tmpl trk : String) (n : Nat) (hn : 0 < n) :
    ∃ u : List Int, paginateCampaign store day hStart tmpl trk n
        (campaignSortedIds store day hStart tmpl trk).length none [] = some u
      ∧ u.Pairwise (fun a b : Int => a < b)
      ∧ ∀ w : Int, w ∈ u ↔ ∃ b, b ∈ store ∧ b.user.id = w ∧ b.day = day
          ∧ ∃ e, e ∈ b.events ∧ hStart ≤ e.dispatch_time
              ∧ e.dispatch_time < hStart + 3600000
              ∧ e.metadata.template_id = tmpl ∧ e.metadata.tracking_id = trk := by
  refine ⟨campaignSortedIds store day hStart tmpl trk, ?_,
    campaignSortedIds_sorted store day hStart tmpl trk,
    fun w => mem_campaignSortedIds store day hStart tmpl trk w⟩
  have hrun := paginate_run store day hStart tmpl trk n hn
    (campaignSortedIds store day hStart tmpl trk).length none [] (by simp [cursorFilter])
  simpa [cursorFilter] using hrun

/-- Witness for campaign_pagination_yields_sorted_distinct: two matching
buckets and page size one, forcing several continuation calls. -/
theorem campaign_pagination_yields_sorted_distinct_inst :
    0 < 1 ∧ ∃ u : List Int, paginateCampaign c1Store 100 200 ("tm") ("tr") 1
        (campaignSortedIds c1Store 100 200 ("tm") ("tr")).length none [] = some u
      ∧ u.Pairwise (fun a b : Int => a < b)
      ∧ ∀ w : Int, w ∈ u ↔ ∃ b, b ∈ c1Store ∧ b.user.id = w ∧ b.day = 100
          ∧ ∃ e, e ∈ b.events ∧ (200 : Int) ≤ e.dispatch_time
              ∧ e.dispatch_time < 200 + 3600000
              ∧ e.metadata.template_id = "tm" ∧ e.metadata.tracking_id = "tr" :=
  ⟨Nat.one_pos,
   campaign_pagination_yields_sorted_distinct c1Store 100 200 ("tm") ("tr") 1 Nat.one_pos⟩

/-- C9: GetUserSchedule returns exactly the user's records whose planned
hour lies in the inclusive range, sorted by final score descending; in
particular, with records at hours 800, 1200 and 2000 scored 0.9, 0.6 and
0.8 for user 42, the range 600 to 1400 returns the 800 record then the
1200 record and excludes the 2000 record. -/
theorem user_schedule_ranked_range :
    (∀ (store : List SchedRecord) (uid startT endT : Int),
        (getUserSchedule store uid startT endT).Perm
            (store.filter (fun r => decide (r.user_id = uid ∧ startT ≤ r.planned_date_hour
              ∧ r.planned_date_hour ≤ endT)))
          ∧ (getUserSchedule store uid startT endT).Pairwise
              (fun a b => b.final_score ≤ a.final_score))
      ∧ getUserSchedule c9Store 42 600 1400 = [mkSched42 800 0.9, mkSched42 1200 0.6] := by
  constructor
  · intro store uid startT endT
    constructor
    · refine (List.perm_insertionSort byScoreDesc _).trans ?_
      have hfe : store.filter (fun r => r.user_id == uid
            && decide (startT ≤ r.planned_date_hour) && decide (r.planned_date_hour ≤ endT))
          = store.filter (fun r => decide (r.user_id = uid ∧ startT ≤ r.planned_date_hour
            ∧ r.planned_date_hour ≤ endT)) := by
        apply List.filter_congr
        intro r _
        rcases Decidable.em (r.user_id = uid) with h1 | h1
          <;> rcases Decidable.em (startT ≤ r.planned_date_hour) with h2 | h2
          <;> rcases Decidable.em (r.planned_date_hour ≤ endT) with h3 | h3
          <;> simp [h1, h2, h3]
      rw [hfe]
    · exact List.sorted_insertionSort byScoreDesc _
  · norm_num [getUserSchedule, c9Store, mkSched42, byScoreDesc, List.filter,
      List.insertionSort, List.orderedInsert]

set_option maxRecDepth 100000 in
/-- C10 counterexample: with 501 matching records (one more than the page
limit), the initial page restricted to ids above cursor 1 misses the 501st
id, while the continuation page with cursor 1 contains it, so the two
results differ. -/
theorem schedule_segment_limit_mismatch :
    ¬((getScheduleSegmentV1 c10Store ("tr") ("tm") 100 none).filter
          (fun u => decide ((1 : Int) < u))
        = getScheduleSegmentV2 c10Store ("tr") ("tm") 100 1) := by
  decide

/-- C10 as amended: before the limit is applied the two code paths order
identically — the initial-page stream restricted past any cursor equals
the continuation stream with that cursor — and for every truthy (nonzero)
cursor the first shape called with the cursor returns exactly the second
shape's page. -/
theorem schedule_segment_paths_agree (store : List SchedRecord) (trk tmpl : String)
    (pdh : Int) (c : Int) :
    ((scheduleStreamV1 store trk tmpl pdh none).map (fun r => r.user_id)).filter
          (fun u => decide (c < u))
        = (scheduleStreamV2 store trk tmpl pdh c).map (fun r => r.user_id)
      ∧ (c ≠ 0 → getScheduleSegmentV1 store trk tmpl pdh (some c)
          = getScheduleSegmentV2 store trk tmpl pdh c) := by
  constructor
  · have hperm : (((scheduleStreamV1 store trk tmpl pdh none).map (fun r => r.user_id)).filter
          (fun u => decide (c < u))).Perm
        ((scheduleStreamV2 store trk tmpl pdh c).map (fun r => r.user_id)) := by
      have p1 : (((scheduleStreamV1 store trk tmpl pdh none).map (fun r => r.user_id)).filter
            (fun u => decide (c < u))).Perm
          (((store.filter (schedMatch trk tmpl pdh)).map (fun r => r.user_id)).filter
            (fun u => decide (c < u))) :=
        ((List.perm_insertionSort byUserId _).map (fun r => r.user_id)).filter _
      have p2 : (scheduleStreamV2 store trk tmpl pdh c).Perm
          (store.filter (fun r => schedMatch trk tmpl pdh r && decide (c < r.user_id))) :=
        List.perm_insertionSort byUserId _
      have heq : ((store.filter (schedMatch trk tmpl pdh)).map (fun r => r.user_id)).filter
            (fun u => decide (c < u))
          = (store.filter (fun r => schedMatch trk tmpl pdh r && decide (c < r.user_id))).map
            (fun r => r.user_id) := by
        rw [List.filter_map, List.filter_filter]
        congr 1
        apply List.filter_congr
        intro r _
        simp [Function.comp, Bool.and_comm]
      refine p1.trans ?_
      rw [heq]
      exact (p2.map (fun r => r.user_id)).symm
    have hs1 : (((scheduleStreamV1 store trk tmpl pdh none).map (fun r => r.user_id)).filter
          (fun u => decide (c < u))).Pairwise (fun a b : Int => a ≤ b) := by
      apply List.Pairwise.filter
      rw [List.pairwise_map]
      exact List.sorted_insertionSort byUserId _
    have hs2 : ((scheduleStreamV2 store trk tmpl pdh c).map
          (fun r => r.user_id)).Pairwise (fun a b : Int => a ≤ b) := by
      rw [List.pairwise_map]
      exact List.sorted_insertionSort byUserId _
    exact List.eq_of_perm_of_sorted hperm hs1 hs2
  · intro hc
    simp only [getScheduleSegmentV1, scheduleStreamV1, getScheduleSegmentV2,
      scheduleStreamV2]
    rw [if_neg (by simp [hc])]

/-- Witness for schedule_segment_paths_agree at cursor 1 over a small
matching store. -/
theorem schedule_segment_paths_agree_inst :
    (1 : Int) ≠ 0 ∧ getScheduleSegmentV1 c10wStore ("tr") ("tm") 100 (some 1)
        = getScheduleSegmentV2 c10wStore ("tr") ("tm") 100 1 :=
  ⟨by decide, (schedule_segment_paths_agree c10wStore ("tr") ("tm") 100 1).2 (by decide)⟩
